import Mathlib

/-!
# Backend connectivity monitor — shallow embedding

This file embeds the core of the repository's backend connectivity
subsystem and proves properties about it:

* `HealthCheckService` (frontend service module): a retrying,
  timeout-bounded health probe (`checkHealth`, `_performHealthCheck`,
  `_delay`) with exponential backoff and abort-signal cancellation.
* `ConnectivityStatus` (`Layout.jsx`): the polling monitor component that
  repeatedly invokes the probe, debounces overlapping checks, and updates
  the externally visible connectivity state.

Network I/O, timers and the abort signal are modelled by an environment
(`ProbeEnv`) that supplies, per attempt index, the outcome of the `fetch`
call and the value of `signal.aborted` at each program point where the
source consults it.  The monitor is modelled as a transition system over
`MonState` driven by events (interval tick, probe completion, teardown).
-/

namespace HealthCheck

/-! ## Strings and the `includes("aborted")` test

`checkHealth` decides whether to retry by testing
`error.message.includes("aborted")`.  We model the error messages verbatim
and implement substring containment executably. -/

/-- Test that the char list `n` occurs at the front of `h`. -/
def matchesFront : List Char → List Char → Bool
  | [], _ => true
  | _ :: _, [] => false
  | a :: as, b :: bs => a == b && matchesFront as bs

/-- Test that the char list `n` occurs contiguously somewhere in `h`. -/
def hasSub (n : List Char) : List Char → Bool
  | [] => n.isEmpty
  | c :: cs => matchesFront n (c :: cs) || hasSub n cs

/-- JavaScript `hay.includes(needle)` on strings. -/
def strIncludes (hay needle : String) : Bool :=
  hasSub needle.toList hay.toList

/-! ## Errors thrown by the service

Each constructor corresponds to one `throw new Error(...)` site in the
source; `errMessage` reproduces the exact message strings. -/

/-- The errors the health check service can throw. -/
inductive JsError where
  /-- Thrown by `checkHealth`: "Health check was aborted" (signal aborted at loop top). -/
  | healthCheckAborted
  /-- Thrown by `_delay`: "Delay was aborted" (signal aborted before/during backoff). -/
  | delayAborted
  /-- Thrown by `_performHealthCheck` catching an `AbortError`: the timed-out message. -/
  | timeout (ms : Nat)
  /-- Thrown by `_performHealthCheck` catching a `TypeError` mentioning fetch: network failure. -/
  | networkUnreachable
  /-- Thrown by `_performHealthCheck` on a non-2xx response status. -/
  | httpStatus (code : Nat) (statusText : String)
  /-- Thrown by `_performHealthCheck`: "Invalid health check response format". -/
  | invalidFormat
deriving DecidableEq, Repr

/-- The exact `error.message` string of each thrown error, from the source. -/
def errMessage : JsError → String
  | .healthCheckAborted => "Health check was aborted"
  | .delayAborted => "Delay was aborted"
  | .timeout ms => "Health check timed out after " ++ toString ms ++ "ms"
  | .networkUnreachable => "Network error: Unable to reach health check endpoint"
  | .httpStatus code statusText =>
      "Health check failed with status " ++ toString code ++ ": " ++ statusText
  | .invalidFormat => "Invalid health check response format"

/-- The `error.message.includes("aborted")` test from `checkHealth`. -/
def messageIncludesAborted (e : JsError) : Bool :=
  strIncludes (errMessage e) "aborted"

/-- The two errors whose *kind* is cancellation ("Aborted" in the spec's
error taxonomy): thrown by the pre-attempt signal check and by `_delay`. -/
def isAbortedKind : JsError → Bool
  | .healthCheckAborted => true
  | .delayAborted => true
  | _ => false

/-! ## Response bodies -/

/-- A parsed JSON health response as the JS object the service handles:
each field is absent (`none`) or a string.  `_performHealthCheck` tests
`!data.status || !data.timestamp`, which for string fields is true exactly
when the field is absent or the empty string. -/
structure JsonBody where
  status : Option String
  timestamp : Option String
  message : Option String
  version : Option String
deriving DecidableEq, Repr

/-- JS falsiness of an optional string field (`!data.field`). -/
def strFieldFalsy : Option String → Bool
  | none => true
  | some s => s == ""

/-- What the environment makes of one `fetch` call inside
`_performHealthCheck`. -/
inductive FetchOutcome where
  /-- The `fetch` call rejected with an `AbortError` (the combined controller
  was aborted, by the per-attempt timer or by the external signal). -/
  | abortError
  /-- The `fetch` call rejected with a `TypeError` mentioning fetch
  (network-level failure). -/
  | networkError
  /-- A response arrived with `response.ok` false. -/
  | httpError (code : Nat) (statusText : String)
  /-- A 2xx response arrived; `some body` if `response.json()` parsed,
  `none` if JSON parsing threw. -/
  | success (parsed : Option JsonBody)
deriving DecidableEq, Repr

/-- One call of `_performHealthCheck` given the fetch outcome.  `now` is
the string `new Date().toISOString()` would produce at this moment (used
only for the synthesized body on a 2xx/non-JSON response). -/
def performHealthCheckOnce (timeoutMs : Nat) (now : String) :
    FetchOutcome → Except JsError JsonBody
  | .abortError => .error (.timeout timeoutMs)
  | .networkError => .error .networkUnreachable
  | .httpError code statusText => .error (.httpStatus code statusText)
  | .success parsed =>
      let data : JsonBody :=
        match parsed with
        | some d => d
        | none =>
            { status := some "ok"
              timestamp := some now
              message := some "Health check successful but response was not valid JSON"
              version := none }
      if strFieldFalsy data.status || strFieldFalsy data.timestamp then
        .error .invalidFormat
      else
        .ok data

/-! ## The retry loop `checkHealth` -/

/-- The resolved configuration fields of a `HealthCheckService` instance
(after constructor defaulting), as used by `checkHealth`. -/
structure Config where
  timeout : Nat
  maxRetries : Nat
  baseDelay : Nat
  endpoint : String
deriving DecidableEq, Repr

/-- The default configuration (`new HealthCheckService({})`). -/
def defaultConfig : Config :=
  { timeout := 5000, maxRetries := 3, baseDelay := 1000, endpoint := "/api/health" }

/-- The environment of one `checkHealth(signal)` call: per attempt index,
the fetch outcome and the value of `signal.aborted` at each point the
source reads it (top of the loop body, the catch-clause check after a
failed attempt, and inside `_delay`).  `abortedInDelay k` is true when the
signal is aborted at the start of — or fires during — the backoff delay
after attempt `k`, making `_delay` reject with "Delay was aborted". -/
structure ProbeEnv where
  outcome : Nat → FetchOutcome
  abortedAtLoopTop : Nat → Bool
  abortedAtCatch : Nat → Bool
  abortedInDelay : Nat → Bool

instance exceptDecEq {ε α : Type} [DecidableEq ε] [DecidableEq α] :
    DecidableEq (Except ε α)
  | .error e, .error e' =>
      if h : e = e' then .isTrue (by rw [h])
      else .isFalse (by intro hc; cases hc; exact h rfl)
  | .error _, .ok _ => .isFalse (by intro hc; cases hc)
  | .ok _, .error _ => .isFalse (by intro hc; cases hc)
  | .ok a, .ok a' =>
      if h : a = a' then .isTrue (by rw [h])
      else .isFalse (by intro hc; cases hc; exact h rfl)

/-- Instrumented result of a `checkHealth` run: the settled value plus the
number of `fetch` calls issued and the backoff delays passed to `_delay`
(in order). -/
structure RunResult where
  result : Except JsError JsonBody
  fetchCalls : Nat
  delays : List Nat
deriving DecidableEq, Repr

/-- The attempt loop of `checkHealth`, from attempt index `attempt` with
`gas` retries still allowed (`gas` = `maxRetries - attempt`; the source
guard `attempt === this.maxRetries` is `gas = 0`).  Each
`_performHealthCheck` call issues exactly one `fetch`. -/
def checkHealthGo (cfg : Config) (env : ProbeEnv) (now : String) :
    Nat → Nat → RunResult
  | attempt, gas =>
    if env.abortedAtLoopTop attempt then
      { result := .error .healthCheckAborted, fetchCalls := 0, delays := [] }
    else
      match performHealthCheckOnce cfg.timeout now (env.outcome attempt) with
      | .ok data => { result := .ok data, fetchCalls := 1, delays := [] }
      | .error e =>
        if env.abortedAtCatch attempt || messageIncludesAborted e then
          { result := .error e, fetchCalls := 1, delays := [] }
        else
          match gas with
          | 0 => { result := .error e, fetchCalls := 1, delays := [] }
          | g + 1 =>
            let d := cfg.baseDelay * 2 ^ attempt
            if env.abortedInDelay attempt then
              { result := .error .delayAborted, fetchCalls := 1, delays := [d] }
            else
              let rest := checkHealthGo cfg env now (attempt + 1) g
              { result := rest.result
                fetchCalls := 1 + rest.fetchCalls
                delays := d :: rest.delays }

/-- Run `service.checkHealth(signal)` under environment `env`. -/
def checkHealth (cfg : Config) (env : ProbeEnv) (now : String) : RunResult :=
  checkHealthGo cfg env now 0 cfg.maxRetries

end HealthCheck

namespace HealthCheck

/-! ## The constructor of `HealthCheckService`

`constructor(options = {})` resolves each field with JavaScript `||`:
`this.timeout = options.timeout || 5000`, etc.  We model the option values
as JS values (absent/`undefined`, `null`, or a number resp. string) and
`a || b` faithfully: it yields `b` exactly when `a` is falsy. -/

/-- A JS value supplied for a numeric option field. -/
inductive JsNumVal where
  | undef
  | jsNull
  | num (n : Int)
deriving DecidableEq, Repr

/-- A JS value supplied for a string option field. -/
inductive JsStrVal where
  | undef
  | jsNull
  | str (s : String)
deriving DecidableEq, Repr

/-- JS falsiness of a numeric option value. -/
def JsNumVal.falsy : JsNumVal → Bool
  | .undef => true
  | .jsNull => true
  | .num n => n == 0

/-- JS falsiness of a string option value. -/
def JsStrVal.falsy : JsStrVal → Bool
  | .undef => true
  | .jsNull => true
  | .str s => s == ""

/-- JS `v || d` for a numeric option value. -/
def jsOrNum : JsNumVal → Int → Int
  | .num n, d => if n == 0 then d else n
  | .undef, d => d
  | .jsNull, d => d

/-- JS `v || d` for a string option value. -/
def jsOrStr : JsStrVal → String → String
  | .str s, d => if s == "" then d else s
  | .undef, d => d
  | .jsNull, d => d

/-- The `HealthCheckOptions` object passed to the constructor; omitted
fields are `undefined`. -/
structure HealthCheckOptions where
  timeout : JsNumVal := .undef
  maxRetries : JsNumVal := .undef
  baseDelay : JsNumVal := .undef
  endpoint : JsStrVal := .undef
deriving DecidableEq, Repr

/-- The instance fields a `HealthCheckService` ends up with. -/
structure ServiceFields where
  timeout : Int
  maxRetries : Int
  baseDelay : Int
  endpoint : String
deriving DecidableEq, Repr

/-- The `HealthCheckService` constructor body. -/
def constructService (options : HealthCheckOptions) : ServiceFields :=
  { timeout := jsOrNum options.timeout 5000
    maxRetries := jsOrNum options.maxRetries 3
    baseDelay := jsOrNum options.baseDelay 1000
    endpoint := jsOrStr options.endpoint "/api/health" }

end HealthCheck

namespace Monitor

open HealthCheck

/-! ## The `ConnectivityStatus` monitor (`Layout.jsx`)

The component is modelled as a transition system.  One state carries the
refs (`mountedRef`, `checkInProgressRef`, `currentRequestRef`,
`intervalRef`) and the React state (`status`, `lastChecked`), plus
instrumentation: the log of `setStatus` calls (the consumer notifications)
and counters of probe invocations issued/outstanding.

Events: `tick` is one invocation of `performHealthCheck` (the immediate
call on mount or an interval firing); `probeReturn now r` is the resumption
of an awaited `checkHealth` promise settling with `r` at time `now`;
`stop` is the teardown (both effect cleanups, in declaration order). -/

/-- The tri-state connectivity phase (`ConnectivityState` in the spec). -/
inductive Phase where
  | checking
  | healthy
  | unhealthy
deriving DecidableEq, Repr

/-- The monitor's state.  `currentRequest` is `none` when
`currentRequestRef.current` is `null`, and `some aborted` when it holds an
`AbortController` whose signal's `aborted` flag is `aborted`.
`inFlightProbes` counts `checkHealth` promises issued but not yet settled;
`updates` records each `setStatus` call (the `onUpdate` notifications);
`probeCalls` counts `checkHealth` invocations. -/
structure MonState where
  mounted : Bool
  checkInProgress : Bool
  currentRequest : Option Bool
  intervalArmed : Bool
  status : Phase
  lastChecked : Option Nat
  updates : List Phase
  probeCalls : Nat
  inFlightProbes : Nat
deriving DecidableEq, Repr

/-- Component state right after mount: `status = "checking"`,
`lastChecked = null`, refs initialized, polling interval armed. -/
def initState : MonState :=
  { mounted := true
    checkInProgress := false
    currentRequest := none
    intervalArmed := true
    status := .checking
    lastChecked := none
    updates := []
    probeCalls := 0
    inFlightProbes := 0 }

/-- Events driving the monitor. -/
inductive MonEvent where
  | tick
  | probeReturn (now : Nat) (r : Except JsError JsonBody)
  | stop
deriving DecidableEq, Repr

/-- The synchronous part of `performHealthCheck` up to the `await`: bail
out when unmounted, debounce when a check is in progress, abort any stale
request, install a fresh `AbortController`, set the in-progress flag,
publish `checking`, and issue the probe. -/
def stepTick (s : MonState) : MonState :=
  if s.mounted = false then s
  else if s.checkInProgress then s
  else
    { s with
      currentRequest := some false
      checkInProgress := true
      status := .checking
      updates := s.updates ++ [.checking]
      probeCalls := s.probeCalls + 1
      inFlightProbes := s.inFlightProbes + 1 }

/-- The phase the completion handler publishes for the settled probe
promise: `response.status === "ok"` gives `healthy`, any other resolved
body gives `unhealthy`, and the catch branch gives `unhealthy`. -/
def resultPhase (r : Except JsError JsonBody) : Phase :=
  match r with
  | .ok data => if data.status == some "ok" then .healthy else .unhealthy
  | .error _ => .unhealthy

/-- The continuation of `performHealthCheck` after `await checkHealth`
settles with `r`: discard the result when unmounted or when the current
request's signal is aborted; otherwise publish `resultPhase r` and stamp
`lastChecked`.  The source's `finally` clause (clear the in-progress flag
and the request ref, but only while mounted) is folded into each branch,
where the value of `mountedRef` is already known. -/
def stepProbeReturn (s : MonState) (now : Nat) (r : Except JsError JsonBody) :
    MonState :=
  if s.inFlightProbes = 0 then s
  else
    if s.mounted = false ∨ s.currentRequest = some true then
      if s.mounted then
        { s with
          inFlightProbes := s.inFlightProbes - 1
          checkInProgress := false
          currentRequest := none }
      else
        { s with inFlightProbes := s.inFlightProbes - 1 }
    else
      { s with
        inFlightProbes := s.inFlightProbes - 1
        status := resultPhase r
        updates := s.updates ++ [resultPhase r]
        lastChecked := some now
        checkInProgress := false
        currentRequest := none }

/-- Teardown: both effect cleanups.  `mountedRef` is cleared, the interval
is cancelled, any in-flight request is aborted and the ref nulled, and the
in-progress flag is reset. -/
def stepStop (s : MonState) : MonState :=
  { s with
    mounted := false
    intervalArmed := false
    currentRequest := none
    checkInProgress := false }

/-- One monitor transition. -/
def step (s : MonState) (e : MonEvent) : MonState :=
  match e with
  | .tick => stepTick s
  | .probeReturn now r => stepProbeReturn s now r
  | .stop => stepStop s

/-- Run the monitor from `s` over an event trace. -/
def run (s : MonState) (es : List MonEvent) : MonState :=
  es.foldl step s

end Monitor

namespace HealthCheck

/-! ## Lemmas about the retry loop -/

lemma checkHealthGo_step (cfg : Config) (env : ProbeEnv) (now : String)
    (attempt gas : Nat) :
    checkHealthGo cfg env now attempt gas =
      if env.abortedAtLoopTop attempt then
        { result := .error .healthCheckAborted, fetchCalls := 0, delays := [] }
      else
        match performHealthCheckOnce cfg.timeout now (env.outcome attempt) with
        | .ok data => { result := .ok data, fetchCalls := 1, delays := [] }
        | .error e =>
          if env.abortedAtCatch attempt || messageIncludesAborted e then
            { result := .error e, fetchCalls := 1, delays := [] }
          else
            match gas with
            | 0 => { result := .error e, fetchCalls := 1, delays := [] }
            | g + 1 =>
              let d := cfg.baseDelay * 2 ^ attempt
              if env.abortedInDelay attempt then
                { result := .error .delayAborted, fetchCalls := 1, delays := [d] }
              else
                let rest := checkHealthGo cfg env now (attempt + 1) g
                { result := rest.result
                  fetchCalls := 1 + rest.fetchCalls
                  delays := d :: rest.delays } := by
  rw [checkHealthGo]

/-- Running the loop from `attempt` when the first `k` attempts all fail
with non-abort errors and the signal stays quiet through them: the run
reaches attempt `attempt + k` having issued `k` fetches and the first `k`
backoff delays. -/
lemma checkHealthGo_reach (cfg : Config) (env : ProbeEnv) (now : String) :
    ∀ k attempt gas, k ≤ gas →
      (∀ j, j < k → env.abortedAtLoopTop (attempt + j) = false) →
      (∀ j, j < k → env.abortedAtCatch (attempt + j) = false) →
      (∀ j, j < k →
        ∃ e, performHealthCheckOnce cfg.timeout now (env.outcome (attempt + j)) = .error e
          ∧ messageIncludesAborted e = false) →
      (∀ j, j < k → env.abortedInDelay (attempt + j) = false) →
      (checkHealthGo cfg env now attempt gas).result
          = (checkHealthGo cfg env now (attempt + k) (gas - k)).result
      ∧ (checkHealthGo cfg env now attempt gas).fetchCalls
          = k + (checkHealthGo cfg env now (attempt + k) (gas - k)).fetchCalls
      ∧ (checkHealthGo cfg env now attempt gas).delays
          = (List.range k).map (fun i => cfg.baseDelay * 2 ^ (attempt + i))
              ++ (checkHealthGo cfg env now (attempt + k) (gas - k)).delays := by
  intro k
  induction k with
  | zero => intro attempt gas _ _ _ _ _; simp
  | succ k ih =>
    intro attempt gas hk hTop hCatch hFail hDelay
    obtain ⟨g, rfl⟩ : ∃ g, gas = g + 1 := ⟨gas - 1, by omega⟩
    obtain ⟨e, he, hme⟩ := hFail 0 (by omega)
    have h0 : env.abortedAtLoopTop attempt = false := by simpa using hTop 0 (by omega)
    have hc0 : env.abortedAtCatch attempt = false := by simpa using hCatch 0 (by omega)
    have hd0 : env.abortedInDelay attempt = false := by simpa using hDelay 0 (by omega)
    rw [Nat.add_zero] at he
    have ih' := ih (attempt + 1) g (by omega)
      (fun j hj => by
        have := hTop (j + 1) (by omega)
        rwa [show attempt + (j + 1) = attempt + 1 + j by omega] at this)
      (fun j hj => by
        have := hCatch (j + 1) (by omega)
        rwa [show attempt + (j + 1) = attempt + 1 + j by omega] at this)
      (fun j hj => by
        have := hFail (j + 1) (by omega)
        rwa [show attempt + (j + 1) = attempt + 1 + j by omega] at this)
      (fun j hj => by
        have := hDelay (j + 1) (by omega)
        rwa [show attempt + (j + 1) = attempt + 1 + j by omega] at this)
    rw [show attempt + 1 + k = attempt + (k + 1) by omega] at ih'
    rw [show g - k = g + 1 - (k + 1) by omega] at ih'
    rw [checkHealthGo_step, h0, he]
    simp only [Bool.false_eq_true, if_false, hc0, hme, Bool.or_self, hd0]
    refine ⟨ih'.1, by rw [ih'.2.1]; omega, ?_⟩
    rw [ih'.2.2, List.range_succ_eq_map, List.map_cons, List.map_map]
    have hfun : ((fun i => cfg.baseDelay * 2 ^ (attempt + i)) ∘ Nat.succ)
        = fun i => cfg.baseDelay * 2 ^ (attempt + 1 + i) := by
      funext i
      simp only [Function.comp_apply]
      congr 2
      omega
    rw [hfun]
    simp only [Nat.add_zero, List.cons_append]

end HealthCheck

namespace Monitor

/-! ## Lemmas about the monitor -/

/-- Inductive invariant: at most one probe is ever outstanding, and while
the component is mounted the debounce flag records exactly whether one is. -/
def MonInv (s : MonState) : Prop :=
  s.inFlightProbes ≤ 1
  ∧ (s.mounted = true → s.checkInProgress = decide (s.inFlightProbes = 1))

lemma monInv_init : MonInv initState := by
  constructor <;> simp [initState]

lemma monInv_step (s : MonState) (e : MonEvent) (h : MonInv s) : MonInv (step s e) := by
  obtain ⟨h1, h2⟩ := h
  cases e with
  | tick =>
    simp only [step]
    unfold stepTick
    split
    · exact ⟨h1, h2⟩
    · split
      · exact ⟨h1, h2⟩
      · rename_i hm hcip
        have hmt : s.mounted = true := by
          revert hm
          cases s.mounted <;> simp
        have hcf : s.checkInProgress = false := by
          revert hcip
          cases s.checkInProgress <;> simp
        have hz : s.inFlightProbes = 0 := by
          rcases Nat.eq_or_lt_of_le h1 with h1' | h1'
          · exfalso
            rw [h2 hmt, h1'] at hcf
            simp at hcf
          · omega
        refine ⟨by simp [hz], fun _ => by simp [hz]⟩
  | probeReturn now r =>
    simp only [step]
    unfold stepProbeReturn
    split
    · exact ⟨h1, h2⟩
    · rename_i hnz
      have hk : s.inFlightProbes = 1 := by omega
      split
      · split
        · exact ⟨by simp [hk], fun _ => by simp [hk]⟩
        · rename_i hskip hm
          exact ⟨by simp [hk], fun hmt => absurd (by simpa using hmt) hm⟩
      · exact ⟨by simp [hk], fun _ => by simp [hk]⟩
  | stop =>
    simp only [step]
    unfold stepStop
    exact ⟨h1, fun hc => absurd hc (by simp)⟩

lemma monInv_run (es : List MonEvent) : ∀ s, MonInv s → MonInv (run s es) := by
  induction es with
  | nil => intro s h; exact h
  | cons e es ih => intro s h; exact ih _ (monInv_step s e h)

/-- Once `mountedRef` is cleared, no event changes the published state or
emits a notification. -/
lemma step_unmounted_frozen (s : MonState) (e : MonEvent) (h : s.mounted = false) :
    (step s e).mounted = false ∧ (step s e).updates = s.updates
    ∧ (step s e).status = s.status ∧ (step s e).lastChecked = s.lastChecked := by
  cases e with
  | tick =>
    simp only [step]
    unfold stepTick
    rw [if_pos h]
    exact ⟨h, rfl, rfl, rfl⟩
  | probeReturn now r =>
    simp only [step]
    unfold stepProbeReturn
    by_cases h0 : s.inFlightProbes = 0
    · rw [if_pos h0]
      exact ⟨h, rfl, rfl, rfl⟩
    · rw [if_neg h0, if_pos (Or.inl h), if_neg (by simp [h])]
      exact ⟨h, rfl, rfl, rfl⟩
  | stop =>
    simp only [step]
    unfold stepStop
    exact ⟨rfl, rfl, rfl, rfl⟩

lemma run_unmounted_frozen (es : List MonEvent) : ∀ s : MonState, s.mounted = false →
    (run s es).mounted = false ∧ (run s es).updates = s.updates
    ∧ (run s es).status = s.status ∧ (run s es).lastChecked = s.lastChecked := by
  induction es with
  | nil => intro s h; exact ⟨h, rfl, rfl, rfl⟩
  | cons e es ih =>
    intro s h
    obtain ⟨hm, hu, hs, hl⟩ := step_unmounted_frozen s e h
    obtain ⟨hm2, hu2, hs2, hl2⟩ := ih (step s e) hm
    exact ⟨hm2, hu2.trans hu, hs2.trans hs, hl2.trans hl⟩

end Monitor

namespace HealthCheck

lemma checkHealthGo_fetchCalls_pos (cfg : Config) (env : ProbeEnv) (now : String)
    (attempt gas : Nat) (h : env.abortedAtLoopTop attempt = false) :
    1 ≤ (checkHealthGo cfg env now attempt gas).fetchCalls := by
  rw [checkHealthGo_step, h, if_neg Bool.false_ne_true]
  split
  · simp
  · split
    · simp
    · split
      · simp
      · split
        · simp
        · simp only []
          omega

/-- An environment in which every fetch rejects at network level and the
abort signal never fires. -/
def envAllNetDown : ProbeEnv :=
  { outcome := fun _ => .networkError
    abortedAtLoopTop := fun _ => false
    abortedAtCatch := fun _ => false
    abortedInDelay := fun _ => false }

/-- A sample `new Date().toISOString()` value. -/
def sampleNow : String := "2025-02-08T10:30:00.000Z"

end HealthCheck

namespace HealthCheck

/-- C2: when the abort signal never fires and every attempt fails with an
error whose message does not contain "aborted", `checkHealth` rethrows
exactly the error produced by the last attempt (attempt `maxRetries`) and
issues exactly `maxRetries + 1` fetch calls. -/
theorem checkHealth_exhaustion_surfaces_last_error (cfg : Config) (env : ProbeEnv)
    (now : String)
    (hTop : ∀ k, env.abortedAtLoopTop k = false)
    (hCatch : ∀ k, env.abortedAtCatch k = false)
    (hDelay : ∀ k, env.abortedInDelay k = false)
    (hFail : ∀ k, ∃ e, performHealthCheckOnce cfg.timeout now (env.outcome k) = .error e
        ∧ messageIncludesAborted e = false) :
    (checkHealth cfg env now).result
        = performHealthCheckOnce cfg.timeout now (env.outcome cfg.maxRetries)
    ∧ (checkHealth cfg env now).fetchCalls = cfg.maxRetries + 1 := by
  have h := checkHealthGo_reach cfg env now cfg.maxRetries 0 cfg.maxRetries le_rfl
    (fun j _ => hTop _) (fun j _ => hCatch _) (fun j _ => hFail _) (fun j _ => hDelay _)
  simp only [Nat.zero_add, Nat.sub_self] at h
  obtain ⟨e, he, hme⟩ := hFail cfg.maxRetries
  have hfinal : checkHealthGo cfg env now cfg.maxRetries 0
      = { result := .error e, fetchCalls := 1, delays := [] } := by
    rw [checkHealthGo_step, hTop cfg.maxRetries, if_neg Bool.false_ne_true, he]
    simp [hCatch cfg.maxRetries, hme]
  constructor
  · rw [checkHealth, h.1, hfinal, he]
  · rw [checkHealth, h.2.1, hfinal]

/-- C2 witness: with the default configuration (`maxRetries = 3`) and every
fetch failing at network level, `checkHealth` fails with the network error
after exactly 4 fetch calls. -/
theorem checkHealth_exhaustion_witness :
    (checkHealth defaultConfig envAllNetDown sampleNow).result
        = .error .networkUnreachable
    ∧ (checkHealth defaultConfig envAllNetDown sampleNow).fetchCalls = 4 := by
  have h := checkHealth_exhaustion_surfaces_last_error defaultConfig envAllNetDown
    sampleNow (fun _ => rfl) (fun _ => rfl) (fun _ => rfl)
    (fun _ => ⟨.networkUnreachable, rfl, by decide⟩)
  exact ⟨h.1.trans rfl, h.2.trans rfl⟩

/-- C8: when the abort signal never fires and every attempt fails with a
non-abort error, the backoff delays handed to `_delay` are exactly
`baseDelay * 2 ^ k` for `k = 0, …, maxRetries - 1`, in order. -/
theorem checkHealth_backoff_delays (cfg : Config) (env : ProbeEnv) (now : String)
    (hTop : ∀ k, env.abortedAtLoopTop k = false)
    (hCatch : ∀ k, env.abortedAtCatch k = false)
    (hDelay : ∀ k, env.abortedInDelay k = false)
    (hFail : ∀ k, ∃ e, performHealthCheckOnce cfg.timeout now (env.outcome k) = .error e
        ∧ messageIncludesAborted e = false) :
    (checkHealth cfg env now).delays
      = (List.range cfg.maxRetries).map (fun k => cfg.baseDelay * 2 ^ k) := by
  have h := checkHealthGo_reach cfg env now cfg.maxRetries 0 cfg.maxRetries le_rfl
    (fun j _ => hTop _) (fun j _ => hCatch _) (fun j _ => hFail _) (fun j _ => hDelay _)
  simp only [Nat.zero_add, Nat.sub_self] at h
  obtain ⟨e, he, hme⟩ := hFail cfg.maxRetries
  have hfinal : checkHealthGo cfg env now cfg.maxRetries 0
      = { result := .error e, fetchCalls := 1, delays := [] } := by
    rw [checkHealthGo_step, hTop cfg.maxRetries, if_neg Bool.false_ne_true, he]
    simp [hCatch cfg.maxRetries, hme]
  rw [checkHealth, h.2.2, hfinal]
  simp

/-- C8 witness: at the default configuration the successive delays are
1000ms, 2000ms, 4000ms; their total, the cumulative delay before the final
attempt, is 7000ms. -/
theorem checkHealth_backoff_delays_witness :
    (checkHealth defaultConfig envAllNetDown sampleNow).delays = [1000, 2000, 4000]
    ∧ (checkHealth defaultConfig envAllNetDown sampleNow).delays.sum = 7000 := by
  have h := checkHealth_backoff_delays defaultConfig envAllNetDown sampleNow
    (fun _ => rfl) (fun _ => rfl) (fun _ => rfl)
    (fun _ => ⟨.networkUnreachable, rfl, by decide⟩)
  rw [h]
  exact ⟨rfl, rfl⟩

end HealthCheck

namespace HealthCheck

/-- C3: if the signal is already aborted before the first attempt,
`checkHealth` fails with the Aborted-kind error "Health check was aborted"
and issues no fetch; if the signal fires during the backoff delay after
attempt `k` (all attempts so far having failed with non-abort errors),
`checkHealth` fails with the Aborted-kind error "Delay was aborted" having
issued exactly `k + 1` fetches — no further network calls. -/
theorem checkHealth_cancellation_aborts (cfg : Config) (env : ProbeEnv) (now : String) :
    (env.abortedAtLoopTop 0 = true →
        (checkHealth cfg env now).result = .error .healthCheckAborted
        ∧ isAbortedKind JsError.healthCheckAborted = true
        ∧ (checkHealth cfg env now).fetchCalls = 0)
    ∧ (∀ k, k < cfg.maxRetries →
        (∀ j, j ≤ k → env.abortedAtLoopTop j = false) →
        (∀ j, j ≤ k → env.abortedAtCatch j = false) →
        (∀ j, j ≤ k →
          ∃ e, performHealthCheckOnce cfg.timeout now (env.outcome j) = .error e
            ∧ messageIncludesAborted e = false) →
        (∀ j, j < k → env.abortedInDelay j = false) →
        env.abortedInDelay k = true →
        (checkHealth cfg env now).result = .error .delayAborted
        ∧ isAbortedKind JsError.delayAborted = true
        ∧ (checkHealth cfg env now).fetchCalls = k + 1) := by
  constructor
  · intro h
    rw [checkHealth, checkHealthGo_step, h, if_pos rfl]
    exact ⟨rfl, rfl, rfl⟩
  · intro k hk hTop hCatch hFail hDelay hAb
    have h := checkHealthGo_reach cfg env now k 0 cfg.maxRetries (by omega)
      (fun j hj => by simpa using hTop j (by omega))
      (fun j hj => by simpa using hCatch j (by omega))
      (fun j hj => by simpa using hFail j (by omega))
      (fun j hj => by simpa using hDelay j hj)
    simp only [Nat.zero_add] at h
    obtain ⟨e, he, hme⟩ := hFail k le_rfl
    obtain ⟨g, hg⟩ : ∃ g, cfg.maxRetries - k = g + 1 := ⟨cfg.maxRetries - k - 1, by omega⟩
    have hfinal : checkHealthGo cfg env now k (cfg.maxRetries - k)
        = { result := .error .delayAborted, fetchCalls := 1,
            delays := [cfg.baseDelay * 2 ^ k] } := by
      rw [hg, checkHealthGo_step, hTop k le_rfl, if_neg Bool.false_ne_true, he]
      simp [hCatch k le_rfl, hme, hAb]
    refine ⟨?_, rfl, ?_⟩
    · rw [checkHealth, h.1, hfinal]
    · rw [checkHealth, h.2.1, hfinal]

/-- An environment whose signal is aborted before `checkHealth` starts. -/
def envPreAborted : ProbeEnv :=
  { outcome := fun _ => .networkError
    abortedAtLoopTop := fun _ => true
    abortedAtCatch := fun _ => true
    abortedInDelay := fun _ => true }

/-- An environment whose signal fires during the first backoff delay. -/
def envAbortInFirstDelay : ProbeEnv :=
  { outcome := fun _ => .networkError
    abortedAtLoopTop := fun _ => false
    abortedAtCatch := fun _ => false
    abortedInDelay := fun _ => true }

/-- C3 witness: at the default configuration, pre-aborted cancellation
yields the abort error with zero fetches, and cancellation during the
first backoff yields the delay-abort error after exactly one fetch. -/
theorem checkHealth_cancellation_witness :
    ((checkHealth defaultConfig envPreAborted sampleNow).result
        = .error .healthCheckAborted
      ∧ (checkHealth defaultConfig envPreAborted sampleNow).fetchCalls = 0)
    ∧ ((checkHealth defaultConfig envAbortInFirstDelay sampleNow).result
        = .error .delayAborted
      ∧ (checkHealth defaultConfig envAbortInFirstDelay sampleNow).fetchCalls = 1) := by
  have h1 := (checkHealth_cancellation_aborts defaultConfig envPreAborted sampleNow).1 rfl
  have h2 := (checkHealth_cancellation_aborts defaultConfig envAbortInFirstDelay
    sampleNow).2 0 (by decide) (fun j _ => rfl) (fun j _ => rfl)
    (fun j _ => ⟨.networkUnreachable, rfl, by decide⟩)
    (fun j hj => absurd hj (by omega)) rfl
  exact ⟨⟨h1.1, h1.2.2⟩, h2.1, h2.2.2⟩

/-- An environment where external cancellation fires while the first fetch
is in flight: the combined controller aborts, `fetch` rejects with an
`AbortError`, and `signal.aborted` reads true in the catch clause of
`checkHealth`. -/
def envCancelMidFlight : ProbeEnv :=
  { outcome := fun _ => .abortError
    abortedAtLoopTop := fun _ => false
    abortedAtCatch := fun _ => true
    abortedInDelay := fun _ => true }

/-- C7 counterexample: external cancellation during the in-flight request
makes `checkHealth` fail immediately after one fetch (no retry), but the
error surfaced is the *timeout* error ("Health check timed out after
5000ms"), not an Aborted-kind error: `_performHealthCheck` maps every
`AbortError` — timer-triggered or external — to the timeout message, so
the error kind does not distinguish external cancellation from a
per-attempt timeout. -/
theorem checkHealth_cancel_in_flight_counterexample :
    (checkHealth defaultConfig envCancelMidFlight sampleNow).result
        = .error (.timeout 5000)
    ∧ isAbortedKind (JsError.timeout 5000) = false
    ∧ messageIncludesAborted (JsError.timeout 5000) = false
    ∧ (checkHealth defaultConfig envCancelMidFlight sampleNow).fetchCalls = 1 := by
  decide

/-- C7 (amended): when external cancellation fires while the request of
attempt `k` is in flight (all earlier attempts failing with non-abort
errors), `checkHealth` fails immediately after `k + 1` fetches — no retry —
but the error it surfaces is the timeout-message error
`Health check timed out after {timeout}ms`, which is not Aborted-kind; the
no-retry behaviour, not the error kind, is what distinguishes external
cancellation. -/
theorem checkHealth_cancel_in_flight_behaviour (cfg : Config) (env : ProbeEnv)
    (now : String) (k : Nat) (hk : k ≤ cfg.maxRetries)
    (hTop : ∀ j, j ≤ k → env.abortedAtLoopTop j = false)
    (hCatchLt : ∀ j, j < k → env.abortedAtCatch j = false)
    (hFail : ∀ j, j < k →
      ∃ e, performHealthCheckOnce cfg.timeout now (env.outcome j) = .error e
        ∧ messageIncludesAborted e = false)
    (hDelay : ∀ j, j < k → env.abortedInDelay j = false)
    (hOut : env.outcome k = .abortError)
    (hCancel : env.abortedAtCatch k = true) :
    (checkHealth cfg env now).result = .error (.timeout cfg.timeout)
    ∧ isAbortedKind (JsError.timeout cfg.timeout) = false
    ∧ (checkHealth cfg env now).fetchCalls = k + 1 := by
  have h := checkHealthGo_reach cfg env now k 0 cfg.maxRetries hk
    (fun j hj => by simpa using hTop j (by omega))
    (fun j hj => by simpa using hCatchLt j hj)
    (fun j hj => by simpa using hFail j hj)
    (fun j hj => by simpa using hDelay j hj)
  simp only [Nat.zero_add] at h
  have hfinal : checkHealthGo cfg env now k (cfg.maxRetries - k)
      = { result := .error (.timeout cfg.timeout), fetchCalls := 1, delays := [] } := by
    rw [checkHealthGo_step, hTop k le_rfl, if_neg Bool.false_ne_true, hOut]
    simp [performHealthCheckOnce, hCancel]
  refine ⟨?_, rfl, ?_⟩
  · rw [checkHealth, h.1, hfinal]
  · rw [checkHealth, h.2.1, hfinal]

/-- C7 witness: the amended behaviour at a concrete input — cancellation
during the first in-flight request, default configuration. -/
theorem checkHealth_cancel_in_flight_witness :
    (checkHealth defaultConfig envCancelMidFlight sampleNow).result
        = .error (.timeout 5000)
    ∧ (checkHealth defaultConfig envCancelMidFlight sampleNow).fetchCalls = 1 := by
  have h := checkHealth_cancel_in_flight_behaviour defaultConfig envCancelMidFlight
    sampleNow 0 (Nat.zero_le _) (fun j _ => rfl)
    (fun j hj => absurd hj (by omega)) (fun j hj => absurd hj (by omega))
    (fun j hj => absurd hj (by omega)) rfl rfl
  exact ⟨h.1, h.2.2⟩

end HealthCheck


namespace HealthCheck

/-- The body `_performHealthCheck` synthesizes for a 2xx response whose
content is not valid JSON. -/
def synthBody (now : String) : JsonBody :=
  { status := some "ok"
    timestamp := some now
    message := some "Health check successful but response was not valid JSON"
    version := none }

/-- C4: under a live signal, a 2xx response whose body fails JSON parsing
makes `checkHealth` succeed immediately (one fetch, no retry) with the
synthesized body whose message flags the invalid JSON; a 2xx response whose
parsed body lacks `status` or `timestamp` (absent or empty) fails the
attempt with the invalid-format error, whose message does not contain
"aborted" and which is therefore retried like any other failure — a second
fetch is issued. -/
theorem checkHealth_lenient_body_strict_format (cfg : Config) (env : ProbeEnv)
    (now : String) (hnow : now ≠ "")
    (hTop0 : env.abortedAtLoopTop 0 = false) :
    (env.outcome 0 = .success none →
        (checkHealth cfg env now).result = .ok (synthBody now)
        ∧ (synthBody now).message
            = some "Health check successful but response was not valid JSON"
        ∧ (checkHealth cfg env now).fetchCalls = 1)
    ∧ (∀ d : JsonBody, env.outcome 0 = .success (some d) →
        (strFieldFalsy d.status || strFieldFalsy d.timestamp) = true →
        performHealthCheckOnce cfg.timeout now (env.outcome 0) = .error .invalidFormat
        ∧ messageIncludesAborted JsError.invalidFormat = false
        ∧ (0 < cfg.maxRetries → env.abortedAtCatch 0 = false →
            env.abortedInDelay 0 = false → env.abortedAtLoopTop 1 = false →
            2 ≤ (checkHealth cfg env now).fetchCalls)) := by
  constructor
  · intro hout
    have hperf : performHealthCheckOnce cfg.timeout now (env.outcome 0)
        = .ok (synthBody now) := by
      rw [hout]
      simp [performHealthCheckOnce, strFieldFalsy, synthBody, hnow]
    have hrun : checkHealth cfg env now
        = { result := .ok (synthBody now), fetchCalls := 1, delays := [] } := by
      rw [checkHealth, checkHealthGo_step, hTop0, if_neg Bool.false_ne_true, hperf]
    rw [hrun]
    exact ⟨rfl, rfl, rfl⟩
  · intro d hout hfalsy
    have hperf : performHealthCheckOnce cfg.timeout now (env.outcome 0)
        = .error .invalidFormat := by
      rw [hout]
      simp [performHealthCheckOnce, hfalsy]
    have hmlabel : messageIncludesAborted JsError.invalidFormat = false := by decide
    refine ⟨hperf, hmlabel, ?_⟩
    intro hmr hc0 hd0 htop1
    obtain ⟨g, hg⟩ : ∃ g, cfg.maxRetries = g + 1 := ⟨cfg.maxRetries - 1, by omega⟩
    rw [checkHealth, hg, checkHealthGo_step, hTop0, if_neg Bool.false_ne_true, hperf]
    simp only [hc0, hmlabel, Bool.or_self, Bool.false_eq_true, if_false, hd0]
    have hpos := checkHealthGo_fetchCalls_pos cfg env now 1 g htop1
    show 2 ≤ 1 + (checkHealthGo cfg env now 1 g).fetchCalls
    omega

/-- An environment where every response is 2xx with an unparseable body. -/
def envBodyNotJson : ProbeEnv :=
  { outcome := fun _ => .success none
    abortedAtLoopTop := fun _ => false
    abortedAtCatch := fun _ => false
    abortedInDelay := fun _ => false }

/-- A parsed 2xx body with `status` missing. -/
def missingFieldsBody : JsonBody :=
  { status := none, timestamp := some "2025-02-08T10:30:00Z",
    message := none, version := none }

/-- An environment where every response is 2xx JSON missing `status`. -/
def envMissingFields : ProbeEnv :=
  { outcome := fun _ => .success (some missingFieldsBody)
    abortedAtLoopTop := fun _ => false
    abortedAtCatch := fun _ => false
    abortedInDelay := fun _ => false }

/-- C4 witness: concrete runs at the default configuration — unparseable
2xx body yields immediate synthesized success; a body missing `status`
yields the invalid-format error and at least a second fetch. -/
theorem checkHealth_lenient_strict_witness :
    ((checkHealth defaultConfig envBodyNotJson sampleNow).result
        = .ok (synthBody sampleNow)
      ∧ (checkHealth defaultConfig envBodyNotJson sampleNow).fetchCalls = 1)
    ∧ (performHealthCheckOnce 5000 sampleNow (.success (some missingFieldsBody))
        = .error .invalidFormat
      ∧ 2 ≤ (checkHealth defaultConfig envMissingFields sampleNow).fetchCalls) := by
  have h1 := (checkHealth_lenient_body_strict_format defaultConfig envBodyNotJson
    sampleNow (by decide) rfl).1 rfl
  have h2 := (checkHealth_lenient_body_strict_format defaultConfig envMissingFields
    sampleNow (by decide) rfl).2 missingFieldsBody rfl (by decide)
  exact ⟨⟨h1.1, h1.2.2⟩, h2.1, h2.2.2 (by decide) rfl rfl rfl⟩

end HealthCheck

namespace Monitor

open HealthCheck

/-- C1: along every event trace from the initial state, at most one probe
invocation is in flight, and an interval tick that arrives while one is
outstanding leaves the state completely unchanged — no new probe starts
and no notification is emitted. -/
theorem monitor_at_most_one_probe (es : List MonEvent) :
    (run initState es).inFlightProbes ≤ 1
    ∧ (1 ≤ (run initState es).inFlightProbes →
        step (run initState es) .tick = run initState es) := by
  obtain ⟨h1, h2⟩ := monInv_run es initState monInv_init
  refine ⟨h1, fun hge => ?_⟩
  have hk : (run initState es).inFlightProbes = 1 := by omega
  simp only [step]
  unfold stepTick
  cases hm : (run initState es).mounted
  · simp
  · have hcp : (run initState es).checkInProgress = true := by
      rw [h2 hm, hk]
      rfl
    simp [hcp]

/-- C1 witness: after one tick from the initial state a probe is in
flight, and a tick arriving then is a no-op. -/
theorem monitor_at_most_one_probe_witness :
    step (run initState [MonEvent.tick]) .tick = run initState [MonEvent.tick] :=
  (monitor_at_most_one_probe [MonEvent.tick]).2 (by decide)

/-- C6: teardown is absorbing for the observable state — after the `stop`
event, no sequence of later events (ticks, late probe completions, repeated
stops) changes the notification log, the phase, or `lastChecked`, and the
monitor never remounts. -/
theorem monitor_post_stop_silence (s : MonState) (es : List MonEvent) :
    (run (step s .stop) es).updates = s.updates
    ∧ (run (step s .stop) es).status = s.status
    ∧ (run (step s .stop) es).lastChecked = s.lastChecked
    ∧ (run (step s .stop) es).mounted = false := by
  have h := run_unmounted_frozen es (step s .stop) (by simp [step, stepStop])
  exact ⟨h.2.1, h.2.2.1, h.2.2.2, h.1⟩

/-- A resolved probe body whose `status` field is `"error"`. -/
def errorBody : JsonBody :=
  { status := some "error", timestamp := some "2025-02-08T10:30:00Z",
    message := some "degraded", version := none }

/-- C5 counterexample: a probe invocation that completes successfully (the
promise resolves) but with body status `"error"` drives the monitor to
`unhealthy`, not `healthy`: the completion handler checks
`response.status === "ok"`, so success of the Probe invocation alone does
not imply `phase = healthy`. -/
theorem monitor_success_not_always_healthy :
    (step (run initState [MonEvent.tick]) (.probeReturn 5 (.ok errorBody))).status
        = .unhealthy
    ∧ Phase.unhealthy ≠ Phase.healthy := by
  decide

/-- C5 (amended): when a probe completion is delivered while the monitor is
mounted and the current request is not aborted, the monitor stamps
`lastChecked = now` and publishes the phase of the settled result:
`healthy` exactly when the promise resolved with body status `"ok"`;
`unhealthy` when it resolved with any other status, and `unhealthy` when it
rejected with any error. -/
theorem monitor_completion_updates (s : MonState) (now : Nat)
    (r : Except JsError JsonBody)
    (hm : s.mounted = true) (hcr : s.currentRequest ≠ some true)
    (hin : 1 ≤ s.inFlightProbes) :
    (step s (.probeReturn now r)).lastChecked = some now
    ∧ (step s (.probeReturn now r)).status = resultPhase r
    ∧ (step s (.probeReturn now r)).updates = s.updates ++ [resultPhase r]
    ∧ (∀ d, r = .ok d → d.status = some "ok" → resultPhase r = .healthy)
    ∧ (∀ d, r = .ok d → d.status ≠ some "ok" → resultPhase r = .unhealthy)
    ∧ (∀ e, r = .error e → resultPhase r = .unhealthy) := by
  have hnskip : ¬ (s.mounted = false ∨ s.currentRequest = some true) := by
    rintro (h | h)
    · rw [hm] at h
      exact absurd h (by decide)
    · exact hcr h
  simp only [step]
  unfold stepProbeReturn
  rw [if_neg (by omega), if_neg hnskip]
  refine ⟨rfl, rfl, rfl, ?_, ?_, ?_⟩
  · rintro d rfl hok
    simp [resultPhase, hok]
  · rintro d rfl hok
    simp [resultPhase, hok]
  · rintro e rfl
    rfl

/-- A resolved probe body with `status: "ok"`. -/
def okBody : JsonBody :=
  { status := some "ok", timestamp := some "2025-02-08T10:30:00Z",
    message := none, version := none }

/-- C5 witness: one tick from the initial state leaves a mounted state with
one probe outstanding; a successful completion with body status `"ok"`
yields `healthy` and stamps the completion time. -/
theorem monitor_completion_updates_witness :
    (step (run initState [MonEvent.tick]) (.probeReturn 5 (.ok okBody))).lastChecked
        = some 5
    ∧ (step (run initState [MonEvent.tick]) (.probeReturn 5 (.ok okBody))).status
        = .healthy := by
  have h := monitor_completion_updates (run initState [MonEvent.tick]) 5 (.ok okBody)
    (by decide) (by decide) (by decide)
  refine ⟨h.1, ?_⟩
  rw [h.2.1, h.2.2.2.1 okBody rfl (by decide)]

/-- The event trace of Scenario C: the immediate check on mount, then 3
interval ticks, each probe resolving successfully (body status `"ok"`)
before the next tick arrives. -/
def scenarioC : List MonEvent :=
  [.tick, .probeReturn 1 (.ok okBody),
   .tick, .probeReturn 2 (.ok okBody),
   .tick, .probeReturn 3 (.ok okBody),
   .tick, .probeReturn 4 (.ok okBody)]

/-- C9 counterexample: after start plus 3 interval advances with every
check succeeding, the code has invoked the probe 4 times (one immediate
check on start plus one per tick) and emitted 8 notifications
(checking + healthy per cycle) — not the claimed 3 probe calls and 6
notifications. -/
theorem monitor_scenarioC_counterexample :
    (run initState scenarioC).probeCalls = 4
    ∧ (run initState scenarioC).updates.length = 8
    ∧ ¬((run initState scenarioC).probeCalls = 3
        ∧ (run initState scenarioC).updates.length = 6) := by
  decide

/-- C9 (amended): the monitor runs one check cycle immediately on start
(one tick event suffices for one probe call), and after 3 further interval
advances with all checks succeeding the probe has been invoked exactly 4
times and the notification log is checking/healthy four times over. -/
theorem monitor_scenarioC_counts :
    (run initState [MonEvent.tick]).probeCalls = 1
    ∧ (run initState scenarioC).probeCalls = 4
    ∧ (run initState scenarioC).updates
        = [.checking, .healthy, .checking, .healthy,
           .checking, .healthy, .checking, .healthy]
    ∧ (run initState scenarioC).status = .healthy := by
  decide

end Monitor

namespace HealthCheck

lemma jsOrNum_falsy (v : JsNumVal) (d : Int) (h : v.falsy = true) : jsOrNum v d = d := by
  cases v with
  | undef => rfl
  | jsNull => rfl
  | num n =>
    simp [JsNumVal.falsy] at h
    simp [jsOrNum, h]

lemma jsOrNum_ne_zero (v : JsNumVal) (d : Int) (hd : d ≠ 0) : jsOrNum v d ≠ 0 := by
  cases v with
  | undef => exact hd
  | jsNull => exact hd
  | num n =>
    by_cases h : n = 0
    · simp [jsOrNum, h]
      exact hd
    · simp [jsOrNum, h]

lemma jsOrStr_falsy (v : JsStrVal) (d : String) (h : v.falsy = true) : jsOrStr v d = d := by
  cases v with
  | undef => rfl
  | jsNull => rfl
  | str s =>
    simp [JsStrVal.falsy] at h
    simp [jsOrStr, h]

/-- C10: the constructor resolves every field with JS `||`, so any falsy
supplied value (absent, `null`, `0`, `""`) is silently replaced by the
default: `maxRetries: 0 ↦ 3`, `timeout: 0 ↦ 5000`, `baseDelay: 0 ↦ 1000`,
`endpoint: "" ↦ "/api/health"`; consequently no constructible service has
`maxRetries = 0` or `timeout = 0`. -/
theorem constructor_falsy_fields_get_defaults (options : HealthCheckOptions) :
    (options.maxRetries.falsy = true → (constructService options).maxRetries = 3)
    ∧ (options.timeout.falsy = true → (constructService options).timeout = 5000)
    ∧ (options.baseDelay.falsy = true → (constructService options).baseDelay = 1000)
    ∧ (options.endpoint.falsy = true →
        (constructService options).endpoint = "/api/health")
    ∧ (constructService options).maxRetries ≠ 0
    ∧ (constructService options).timeout ≠ 0 :=
  ⟨fun h => jsOrNum_falsy _ _ h,
   fun h => jsOrNum_falsy _ _ h,
   fun h => jsOrNum_falsy _ _ h,
   fun h => jsOrStr_falsy _ _ h,
   jsOrNum_ne_zero _ _ (by decide),
   jsOrNum_ne_zero _ _ (by decide)⟩

/-- The options object `{timeout: 0, maxRetries: 0, endpoint: ""}`. -/
def zeroOptions : HealthCheckOptions :=
  { timeout := .num 0, maxRetries := .num 0, baseDelay := .undef, endpoint := .str "" }

/-- C10 witness: constructing with `maxRetries: 0`, `timeout: 0` and
`endpoint: ""` yields the defaults 3, 5000 and "/api/health". -/
theorem constructor_falsy_fields_witness :
    (constructService zeroOptions).maxRetries = 3
    ∧ (constructService zeroOptions).timeout = 5000
    ∧ (constructService zeroOptions).endpoint = "/api/health" := by
  have h := constructor_falsy_fields_get_defaults zeroOptions
  exact ⟨h.1 (by decide), h.2.1 (by decide), h.2.2.2.1 (by decide)⟩

end HealthCheck
